import Mathlib

/-!
Shallow embedding of the bid-monitoring application (`src/app.py`).

The SQLite tables become Lean lists of records; `AUTOINCREMENT` primary keys
become explicit `next_*` counters on the database state; SQL `NULL` becomes
`Option`; timestamps become integers.  Each mutating code path (the
`update_bid_stage` helper, the "Create Bid" form submit, the "Update Status"
button and the "Transition Stage" button of `manage_bid_process`) becomes a
function from database state to database state, returning `Option` where the
code path can refuse to act.
-/

namespace BidApp

/-- A row of the `bids` table (`CREATE TABLE bids`, src/app.py lines 41-53).
`reason` is nullable (it is omitted by the creation INSERT). -/
structure Bid where
  id : Nat
  title : String
  description : String
  status : String
  stage : String
  due_date : Int
  assigned_to : String
  created_by : String
  created_at : Int
  client_name : String
  bid_value : Int
  reason : Option String
  deriving Repr, DecidableEq

/-- A row of the `bid_stages` table (src/app.py lines 77-84).
`completed_at = none` means the stage interval is still open. -/
structure StageInterval where
  id : Nat
  bid_id : Nat
  stage : String
  stage_owner : String
  started_at : Int
  completed_at : Option Int
  notes : String
  deriving Repr, DecidableEq

/-- A row of the `bid_history` table (src/app.py lines 68-75). -/
structure HistoryRecord where
  id : Nat
  bid_id : Nat
  changed_at : Int
  changed_by : String
  field_changed : String
  old_value : String
  new_value : String
  deriving Repr, DecidableEq

/-- The mutable database state: the three core tables plus the autoincrement
counters for their primary keys. -/
structure DB where
  bids : List Bid
  bid_stages : List StageInterval
  bid_history : List HistoryRecord
  next_bid_id : Nat
  next_stage_id : Nat
  next_hist_id : Nat
  deriving Repr, DecidableEq

/-- The empty database right after table creation. SQLite AUTOINCREMENT ids
start at 1. -/
def DB.empty : DB :=
  { bids := [], bid_stages := [], bid_history := []
    next_bid_id := 1, next_stage_id := 1, next_hist_id := 1 }

/-- The stage registry `BID_STAGES` (src/app.py lines 93-101), as an
association list from stage name to default owner. -/
def BID_STAGES : List (String × String) :=
  [ ("Proposal Drafting", "Proposal Manager"),
    ("Legal Review", "Legal Team"),
    ("Pricing Review", "Finance Team"),
    ("Submission", "Sales Lead"),
    ("Evaluation", "Client"),
    ("Awarded", "Account Manager"),
    ("Lost", "Sales Lead") ]

/-- Python `BID_STAGES.get(key, default)`. -/
def stagesGet (key dflt : String) : String :=
  match BID_STAGES.find? (fun p => p.1 == key) with
  | some p => p.2
  | none => dflt

/-- `BID_STAGES.keys()`. -/
def stageKeys : List String := BID_STAGES.map (·.1)

/-- The stage-owner lookup the code performs at every interval insertion:
`BID_STAGES.get(new_stage, "Unassigned")` (src/app.py line 124). The spec
calls this `ownerFor`. -/
def ownerFor (stageName : String) : String := stagesGet stageName "Unassigned"

/-- The row freshly inserted by `update_bid_stage` (src/app.py lines 121-125):
`completed_at` is absent from the INSERT column list, hence NULL. -/
def newInterval (db : DB) (bid_id : Nat) (new_stage notes : String) (now : Int) :
    StageInterval :=
  { id := db.next_stage_id, bid_id := bid_id, stage := new_stage,
    stage_owner := ownerFor new_stage, started_at := now,
    completed_at := none, notes := notes }

/-- The row-level effect of `UPDATE bid_stages SET completed_at = ? WHERE
bid_id = ? AND completed_at IS NULL` on one row. -/
def closeOpen (bid_id : Nat) (now : Int) (s : StageInterval) : StageInterval :=
  if s.bid_id == bid_id && s.completed_at == none then
    { s with completed_at := some now }
  else s

/-- `update_bid_stage(bid_id, new_stage, notes)` (src/app.py lines 112-126):
first `UPDATE bid_stages SET completed_at = now WHERE bid_id = ? AND
completed_at IS NULL` (closing every open interval of that bid), then INSERT
a new open interval whose owner is `BID_STAGES.get(new_stage, "Unassigned")`.
Both `datetime.now()` calls are modelled by the single parameter `now`. -/
def update_bid_stage (db : DB) (bid_id : Nat) (new_stage notes : String)
    (now : Int) : DB :=
  { db with
    bid_stages :=
      (db.bid_stages.map (closeOpen bid_id now)) ++
        [newInterval db bid_id new_stage notes now],
    next_stage_id := db.next_stage_id + 1 }

/-- `log_bid_history(bid_id, field_changed, old_value, new_value)`
(src/app.py lines 103-110): one INSERT into `bid_history` stamped with the
current time and the session user. -/
def log_bid_history (db : DB) (bid_id : Nat)
    (field_changed old_value new_value user : String) (now : Int) : DB :=
  { db with
    bid_history := db.bid_history ++
      [{ id := db.next_hist_id, bid_id := bid_id, changed_at := now,
         changed_by := user, field_changed := field_changed,
         old_value := old_value, new_value := new_value }],
    next_hist_id := db.next_hist_id + 1 }

/-- `SELECT * FROM bids WHERE id=?` reduced to its first row (the code uses
`bid.iloc[0]`); `id` is the primary key so the first match is the row. -/
def findBid (db : DB) (bid_id : Nat) : Option Bid :=
  db.bids.find? (fun b => b.id == bid_id)

/-- The "Create Bid" form submit branch (src/app.py lines 304-321): if any of
title, client name, assigned-to is empty the code only shows an error and
inserts nothing (`none`); otherwise it INSERTs a bid with status 'Open',
stage 'Proposal Drafting', NULL reason, then calls
`update_bid_stage(bid_id, "Proposal Drafting", "Bid created")` on the fresh
`lastrowid`. -/
def create_bid (db : DB) (title description client_name : String)
    (bid_value : Int) (due_date : Int) (assigned_to user : String)
    (now : Int) : Option DB :=
  if title == "" || client_name == "" || assigned_to == "" then none
  else
    let bid : Bid :=
      { id := db.next_bid_id, title := title, description := description,
        status := "Open", stage := "Proposal Drafting", due_date := due_date,
        assigned_to := assigned_to, created_by := user, created_at := now,
        client_name := client_name, bid_value := bid_value, reason := none }
    let db1 : DB :=
      { db with bids := db.bids ++ [bid], next_bid_id := db.next_bid_id + 1 }
    some (update_bid_stage db1 bid.id "Proposal Drafting" "Bid created" now)

/-- The "Update Status" button flow of `manage_bid_process`
(src/app.py lines 365-408): requires the bid to exist (`none` otherwise);
the UI sets `reason` to the selected loss reason only when the new status is
"Lost" and to `""` otherwise (lines 389-394); then
`UPDATE bids SET status=?, reason=? WHERE id=?`,
`log_bid_history(bid_id, "status", old_status, new_status)`, and the
compound transition: "Won" opens an "Awarded" interval with notes
"Bid won!", "Lost" opens a "Lost" interval with notes "Bid lost: "+reason.
Note the flow never touches the `stage` column of `bids`.
`statusUpdateRow` is the row-level effect of
`UPDATE bids SET status=?, reason=? WHERE id=?`. -/
def statusUpdateRow (bid_id : Nat) (new_status reason : String) (b : Bid) :
    Bid :=
  if b.id == bid_id then { b with status := new_status, reason := some reason }
  else b

def set_status (db : DB) (bid_id : Nat) (new_status reason_input user : String)
    (now : Int) : Option DB :=
  match findBid db bid_id with
  | none => none
  | some bid =>
    let reason := if new_status == "Lost" then reason_input else ""
    let old_status := bid.status
    let db1 : DB :=
      { db with bids := db.bids.map (statusUpdateRow bid_id new_status reason) }
    let db2 := log_bid_history db1 bid_id "status" old_status new_status user now
    if new_status == "Won" then
      some (update_bid_stage db2 bid_id "Awarded" "Bid won!" now)
    else if new_status == "Lost" then
      some (update_bid_stage db2 bid_id "Lost" ("Bid lost: " ++ reason) now)
    else
      some db2

/-- `SELECT * FROM bid_stages WHERE bid_id=?` — all recorded intervals of a
bid (the code orders them by `started_at` only for display). -/
def intervalsFor (db : DB) (bid_id : Nat) : List StageInterval :=
  db.bid_stages.filter (fun s => s.bid_id == bid_id)

/-- The stage names already recorded for a bid
(`completed_stages = stages['stage'].values`, src/app.py line 420). -/
def usedStages (db : DB) (bid_id : Nat) : List String :=
  (intervalsFor db bid_id).map (·.stage)

/-- `available_stages = [s for s in BID_STAGES.keys() if s not in
completed_stages]` (src/app.py line 421). -/
def availableStages (db : DB) (bid_id : Nat) : List String :=
  stageKeys.filter (fun s => !(usedStages db bid_id).contains s)

/-- The "Transition Stage" button flow of `manage_bid_process`
(src/app.py lines 365-432): requires the bid to exist; the stage selectbox
offers only `available_stages`, so a stage outside the registry or already
recorded for the bid cannot be transitioned to (`none`). On success:
`update_bid_stage(bid_id, new_stage, notes)` then
`UPDATE bids SET stage=? WHERE id=?`. -/
def transition_stage (db : DB) (bid_id : Nat) (new_stage notes : String)
    (now : Int) : Option DB :=
  match findBid db bid_id with
  | none => none
  | some _ =>
    if (availableStages db bid_id).contains new_stage then
      let db1 := update_bid_stage db bid_id new_stage notes now
      some { db1 with bids := db1.bids.map (fun b =>
        if b.id == bid_id then { b with stage := new_stage } else b) }
    else none

/-- The bid's currently-open stage intervals. -/
def openIntervalsFor (db : DB) (bid_id : Nat) : List StageInterval :=
  db.bid_stages.filter (fun s => s.bid_id == bid_id && s.completed_at == none)

/-- The single-open-interval invariant: for every bid id, at most one
`bid_stages` row has `completed_at` NULL. -/
def AtMostOneOpen (db : DB) : Prop :=
  ∀ bid_id : Nat, (openIntervalsFor db bid_id).length ≤ 1

/-- Stage/interval consistency: every bid's `stage` column equals the stage
name of each of its currently-open stage intervals. -/
def StageMatchesOpen (db : DB) : Prop :=
  ∀ b ∈ db.bids, ∀ s ∈ openIntervalsFor db b.id, s.stage = b.stage

section Lemmas

lemma filter_map_eq_filter (f : α → α) (p : α → Bool) (l : List α)
    (h : ∀ x ∈ l, p (f x) = p x ∧ (p x = true → f x = x)) :
    (l.map f).filter p = l.filter p := by
  induction l with
  | nil => rfl
  | cons x xs ih =>
    have hx := h x (List.mem_cons_self x xs)
    have hxs := ih fun y hy => h y (List.mem_cons_of_mem x hy)
    simp only [List.map_cons, List.filter_cons, hx.1]
    cases hp : p x with
    | false => exact hxs
    | true => rw [hx.2 hp, hxs]

lemma filter_closeOpen_self (l : List StageInterval) (b : Nat) (t : Int) :
    (l.map (closeOpen b t)).filter
      (fun s => s.bid_id == b && s.completed_at == none) = [] := by
  rw [List.filter_eq_nil_iff]
  intro s hs
  rcases List.mem_map.mp hs with ⟨x, _, rfl⟩
  by_cases hc : (x.bid_id == b && x.completed_at == none) = true
  · simp only [closeOpen, if_pos hc]
    simp
  · rw [closeOpen, if_neg hc]
    exact fun hcc => hc hcc

lemma filter_closeOpen_ne (l : List StageInterval) (b b' : Nat) (h : b' ≠ b)
    (t : Int) :
    (l.map (closeOpen b t)).filter
        (fun s => s.bid_id == b' && s.completed_at == none)
      = l.filter (fun s => s.bid_id == b' && s.completed_at == none) := by
  apply filter_map_eq_filter
  intro x _
  by_cases hc : (x.bid_id == b && x.completed_at == none) = true
  · have hxb : x.bid_id = b := eq_of_beq ((Bool.and_eq_true _ _).mp hc).1
    have hnb' : (x.bid_id == b') = false := by
      rw [hxb]
      exact beq_false_of_ne (Ne.symm h)
    refine ⟨?_, fun hp => ?_⟩
    · simp only [closeOpen, if_pos hc]
      simp [hnb']
    · have : (x.bid_id == b') = true := ((Bool.and_eq_true _ _).mp hp).1
      rw [hnb'] at this
      cases this
  · exact ⟨by rw [closeOpen, if_neg hc], fun _ => by rw [closeOpen, if_neg hc]⟩

/-- Effect of `update_bid_stage` on the open intervals of every bid: the
touched bid ends with exactly the freshly inserted interval open, every
other bid's open intervals are untouched. -/
lemma openIntervalsFor_update (db : DB) (b b' : Nat) (stg notes : String)
    (t : Int) :
    openIntervalsFor (update_bid_stage db b stg notes t) b' =
      if b' = b then [newInterval db b stg notes t]
      else openIntervalsFor db b' := by
  unfold openIntervalsFor update_bid_stage
  rw [List.filter_append]
  by_cases hb : b' = b
  · subst hb
    rw [filter_closeOpen_self]
    simp [newInterval]
  · rw [filter_closeOpen_ne _ _ _ hb]
    simp [newInterval, hb, Ne.symm hb]

lemma AtMostOneOpen_update (db : DB) (b : Nat) (stg notes : String) (t : Int)
    (h : AtMostOneOpen db) :
    AtMostOneOpen (update_bid_stage db b stg notes t) := by
  intro bid
  rw [openIntervalsFor_update]
  by_cases hb : bid = b
  · simp [hb]
  · simpa [hb] using h bid

lemma AtMostOneOpen_create (db : DB) (title descr client : String)
    (bv dd : Int) (asg u : String) (t : Int) (db' : DB)
    (heq : create_bid db title descr client bv dd asg u t = some db')
    (h : AtMostOneOpen db) : AtMostOneOpen db' := by
  unfold create_bid at heq
  split at heq
  · cases heq
  · injection heq with heq
    subst heq
    exact AtMostOneOpen_update _ _ _ _ _ (fun bid => h bid)

lemma AtMostOneOpen_set_status (db : DB) (b : Nat) (ns r u : String) (t : Int)
    (db' : DB) (heq : set_status db b ns r u t = some db')
    (h : AtMostOneOpen db) : AtMostOneOpen db' := by
  unfold set_status at heq
  split at heq
  · cases heq
  · repeat' split at heq
    all_goals injection heq with heq
    all_goals subst heq
    all_goals
      first
        | exact AtMostOneOpen_update _ _ _ _ _ (fun bid => h bid)
        | exact fun bid => h bid

lemma AtMostOneOpen_transition (db : DB) (b : Nat) (s n : String) (t : Int)
    (db' : DB) (heq : transition_stage db b s n t = some db')
    (h : AtMostOneOpen db) : AtMostOneOpen db' := by
  unfold transition_stage at heq
  split at heq
  · cases heq
  · split at heq
    · injection heq with heq
      subst heq
      exact fun bid => AtMostOneOpen_update db b s n t h bid
    · cases heq

/-- One request of a `transition_stage` call sequence: when the call is
refused the state is unchanged. -/
def applyTransition (db : DB) (r : Nat × String × String × Int) : DB :=
  match transition_stage db r.1 r.2.1 r.2.2.1 r.2.2.2 with
  | some db' => db'
  | none => db

/-- A whole sequence of `transition_stage` calls. -/
def applyTransitions (db : DB) (rs : List (Nat × String × String × Int)) : DB :=
  rs.foldl applyTransition db

lemma AtMostOneOpen_applyTransition (db : DB) (r : Nat × String × String × Int)
    (h : AtMostOneOpen db) : AtMostOneOpen (applyTransition db r) := by
  unfold applyTransition
  cases heq : transition_stage db r.1 r.2.1 r.2.2.1 r.2.2.2 with
  | none => exact h
  | some db' => exact AtMostOneOpen_transition _ _ _ _ _ _ heq h

lemma AtMostOneOpen_applyTransitions (db : DB)
    (rs : List (Nat × String × String × Int)) (h : AtMostOneOpen db) :
    AtMostOneOpen (applyTransitions db rs) := by
  induction rs generalizing db with
  | nil => exact h
  | cons r rs ih => exact ih _ (AtMostOneOpen_applyTransition db r h)

end Lemmas

/-- C1: for every bid and after every mutating operation (create, setStatus,
transitionStage), at most one StageInterval row for that bid has
completed_at = null; in particular any sequence of transitionStage calls
preserves this. -/
theorem atMostOneOpen_preserved (db : DB) (h : AtMostOneOpen db) :
    (∀ title descr client bv dd asg u t db',
        create_bid db title descr client bv dd asg u t = some db' →
        AtMostOneOpen db') ∧
    (∀ b ns r u t db', set_status db b ns r u t = some db' →
        AtMostOneOpen db') ∧
    (∀ b s n t db', transition_stage db b s n t = some db' →
        AtMostOneOpen db') ∧
    (∀ rs, AtMostOneOpen (applyTransitions db rs)) :=
  ⟨fun _ _ _ _ _ _ _ _ _ heq => AtMostOneOpen_create _ _ _ _ _ _ _ _ _ _ heq h,
   fun _ _ _ _ _ _ heq => AtMostOneOpen_set_status _ _ _ _ _ _ _ heq h,
   fun _ _ _ _ _ heq => AtMostOneOpen_transition _ _ _ _ _ _ heq h,
   fun rs => AtMostOneOpen_applyTransitions db rs h⟩

/-- Witness for C1 at a concrete input: the empty database satisfies the
invariant and still does after a sequence of transition requests. -/
theorem atMostOneOpen_preserved_witness :
    AtMostOneOpen (applyTransitions DB.empty
      [(1, "Legal Review", "notes", 0), (1, "Submission", "go", 1)]) :=
  (atMostOneOpen_preserved DB.empty (fun _ => Nat.zero_le 1)).2.2.2 _

/-- C9: `update_bid_stage` closes every open interval of the given bid — each
previously open row of that bid reappears with `completed_at` set — and
afterwards the bid's open intervals are exactly the freshly inserted row. -/
theorem update_bid_stage_closes_all (db : DB) (b : Nat) (stg notes : String)
    (t : Int) :
    openIntervalsFor (update_bid_stage db b stg notes t) b
        = [newInterval db b stg notes t] ∧
    (openIntervalsFor (update_bid_stage db b stg notes t) b).length = 1 ∧
    (∀ s ∈ db.bid_stages, s.bid_id = b → s.completed_at = none →
      { s with completed_at := some t }
        ∈ (update_bid_stage db b stg notes t).bid_stages) := by
  refine ⟨?_, ?_, ?_⟩
  · rw [openIntervalsFor_update]
    simp
  · rw [openIntervalsFor_update]
    simp
  · intro s hs hb hopen
    have hcl : closeOpen b t s = { s with completed_at := some t } := by
      rw [closeOpen, if_pos]
      rw [hb, hopen]
      simp
    rw [update_bid_stage]
    apply List.mem_append_left
    rw [← hcl]
    exact List.mem_map_of_mem _ hs

/-- A store already holding two open intervals for bid 1 (a state the
invariant forbids, used to observe that `update_bid_stage` repairs it). -/
def dbTwoOpen : DB :=
  { bids := [], bid_history := [],
    bid_stages :=
      [ { id := 1, bid_id := 1, stage := "Legal Review",
          stage_owner := "Legal Team", started_at := 0,
          completed_at := none, notes := "" },
        { id := 2, bid_id := 1, stage := "Submission",
          stage_owner := "Sales Lead", started_at := 1,
          completed_at := none, notes := "" } ],
    next_bid_id := 1, next_stage_id := 3, next_hist_id := 1 }

/-- Witness for C9 at a concrete input: both open rows of `dbTwoOpen` get
closed and only the new interval remains open. -/
theorem update_bid_stage_closes_all_witness :
    openIntervalsFor (update_bid_stage dbTwoOpen 1 "Evaluation" "w" 5) 1
        = [newInterval dbTwoOpen 1 "Evaluation" "w" 5] ∧
    ({ id := 1, bid_id := 1, stage := "Legal Review",
       stage_owner := "Legal Team", started_at := 0,
       completed_at := some 5, notes := "" } : StageInterval)
        ∈ (update_bid_stage dbTwoOpen 1 "Evaluation" "w" 5).bid_stages :=
  ⟨(update_bid_stage_closes_all dbTwoOpen 1 "Evaluation" "w" 5).1,
   (update_bid_stage_closes_all dbTwoOpen 1 "Evaluation" "w" 5).2.2
     { id := 1, bid_id := 1, stage := "Legal Review",
       stage_owner := "Legal Team", started_at := 0,
       completed_at := none, notes := "" }
     (by decide) rfl rfl⟩

/-- C6: `ownerFor` maps each of the seven registry keys to its owner and
every name outside the registry to the sentinel "Unassigned", never
rejecting a name. -/
theorem ownerFor_registry_spec :
    (ownerFor "Proposal Drafting" = "Proposal Manager" ∧
     ownerFor "Legal Review" = "Legal Team" ∧
     ownerFor "Pricing Review" = "Finance Team" ∧
     ownerFor "Submission" = "Sales Lead" ∧
     ownerFor "Evaluation" = "Client" ∧
     ownerFor "Awarded" = "Account Manager" ∧
     ownerFor "Lost" = "Sales Lead") ∧
    (∀ name : String, name ∉ stageKeys → ownerFor name = "Unassigned") := by
  refine ⟨by decide, ?_⟩
  intro name hname
  rw [ownerFor, stagesGet]
  have hfind : BID_STAGES.find? (fun p => p.1 == name) = none := by
    rw [List.find?_eq_none]
    intro p hp hbeq
    exact hname (List.mem_map.mpr ⟨p, hp, eq_of_beq hbeq⟩)
  rw [hfind]

/-- Witness for C6 at a concrete input: a name outside the registry. -/
theorem ownerFor_registry_spec_witness :
    ownerFor "Handover" = "Unassigned" :=
  ownerFor_registry_spec.2 "Handover" (by decide)

/-- The bid row inserted by the "Create Bid" form on success
(src/app.py lines 308-313): status 'Open', stage 'Proposal Drafting', and no
`reason` column in the INSERT (NULL). -/
def createdBid (db : DB) (title descr client : String) (bv dd : Int)
    (asg u : String) (t : Int) : Bid :=
  { id := db.next_bid_id, title := title, description := descr,
    status := "Open", stage := "Proposal Drafting", due_date := dd,
    assigned_to := asg, created_by := u, created_at := t,
    client_name := client, bid_value := bv, reason := none }

/-- The database produced by a successful "Create Bid" submit. -/
def create_bid_result (db : DB) (title descr client : String) (bv dd : Int)
    (asg u : String) (t : Int) : DB :=
  update_bid_stage
    { db with
      bids := db.bids ++ [createdBid db title descr client bv dd asg u t],
      next_bid_id := db.next_bid_id + 1 }
    db.next_bid_id "Proposal Drafting" "Bid created" t

/-- C5: create with non-empty title, clientName and assignedTo inserts a bid
with status "Open" and stage "Proposal Drafting", leaves exactly one open
interval for the new bid with stage "Proposal Drafting" and notes
"Bid created", and writes no HistoryRecord; with any required field empty it
fails and inserts nothing. -/
theorem create_bid_spec (db : DB) (title descr client : String) (bv dd : Int)
    (asg u : String) (t : Int) :
    (title ≠ "" → client ≠ "" → asg ≠ "" →
      create_bid db title descr client bv dd asg u t
          = some (create_bid_result db title descr client bv dd asg u t) ∧
      (create_bid_result db title descr client bv dd asg u t).bids
          = db.bids ++ [createdBid db title descr client bv dd asg u t] ∧
      (createdBid db title descr client bv dd asg u t).status = "Open" ∧
      (createdBid db title descr client bv dd asg u t).stage
          = "Proposal Drafting" ∧
      openIntervalsFor (create_bid_result db title descr client bv dd asg u t)
          db.next_bid_id
        = [{ id := db.next_stage_id, bid_id := db.next_bid_id,
             stage := "Proposal Drafting", stage_owner := "Proposal Manager",
             started_at := t, completed_at := none, notes := "Bid created" }] ∧
      (create_bid_result db title descr client bv dd asg u t).bid_history
          = db.bid_history) ∧
    ((title = "" ∨ client = "" ∨ asg = "") →
      create_bid db title descr client bv dd asg u t = none) := by
  constructor
  · intro h1 h2 h3
    have hcond : ¬ ((title == "" || client == "" || asg == "") = true) := by
      simp [h1, h2, h3]
    refine ⟨?_, rfl, rfl, rfl, ?_, rfl⟩
    · rw [create_bid, if_neg hcond]
      rfl
    · rw [create_bid_result, openIntervalsFor_update]
      rw [if_pos rfl]
      rfl
  · intro hor
    rcases hor with hh | hh | hh <;>
      rw [create_bid, if_pos (by simp [hh])]

/-- Witness for C5 at a concrete input. -/
theorem create_bid_spec_witness :
    create_bid DB.empty "Acme Deal" "" "Acme Corp" 100 10 "Jane" "admin" 0
        = some (create_bid_result DB.empty "Acme Deal" "" "Acme Corp" 100 10
            "Jane" "admin" 0) ∧
    openIntervalsFor
        (create_bid_result DB.empty "Acme Deal" "" "Acme Corp" 100 10 "Jane"
          "admin" 0) 1
      = [{ id := 1, bid_id := 1, stage := "Proposal Drafting",
           stage_owner := "Proposal Manager", started_at := 0,
           completed_at := none, notes := "Bid created" }] ∧
    create_bid DB.empty "" "" "Acme Corp" 100 10 "Jane" "admin" 0 = none :=
  ⟨(create_bid_spec DB.empty "Acme Deal" "" "Acme Corp" 100 10 "Jane" "admin"
      0).1 (by decide) (by decide) (by decide) |>.1,
   (create_bid_spec DB.empty "Acme Deal" "" "Acme Corp" 100 10 "Jane" "admin"
      0).1 (by decide) (by decide) (by decide) |>.2.2.2.2.1,
   (create_bid_spec DB.empty "" "" "Acme Corp" 100 10 "Jane" "admin" 0).2
     (Or.inl rfl)⟩

section TransitionLemmas

lemma mem_availableStages (db : DB) (b : Nat) (s : String) :
    s ∈ availableStages db b ↔ (s ∈ stageKeys ∧ s ∉ usedStages db b) := by
  unfold availableStages
  rw [List.mem_filter]
  simp

lemma transition_stage_none_iff (db : DB) (b : Nat) (bid : Bid)
    (h : findBid db b = some bid) (s n : String) (t : Int) :
    transition_stage db b s n t = none ↔ s ∉ availableStages db b := by
  unfold transition_stage
  rw [h]
  by_cases hmem : s ∈ availableStages db b
  · have hc : (availableStages db b).contains s = true := by simpa using hmem
    simp [hc, hmem]
  · have hc : (availableStages db b).contains s = false := by simpa using hmem
    simp [hc, hmem]

lemma self_mem_usedStages_update (db : DB) (b : Nat) (s n : String) (t : Int) :
    s ∈ usedStages (update_bid_stage db b s n t) b := by
  unfold usedStages intervalsFor update_bid_stage
  refine List.mem_map.mpr ⟨newInterval db b s n t, ?_, rfl⟩
  refine List.mem_filter.mpr ⟨List.mem_append_right _ ?_, by simp [newInterval]⟩
  exact List.mem_singleton_self _

lemma transition_stage_reject_used (db : DB) (b : Nat) (s : String)
    (hused : s ∈ usedStages db b) (n : String) (t : Int) :
    transition_stage db b s n t = none := by
  unfold transition_stage
  cases hf : findBid db b with
  | none => rfl
  | some bid =>
    have hmem : s ∉ availableStages db b :=
      fun hmem => ((mem_availableStages db b s).mp hmem).2 hused
    have hc : (availableStages db b).contains s = false := by simpa using hmem
    simp [hc, hmem]

end TransitionLemmas

/-- C3: for an existing bid, transitionStage refuses (no transition happens)
exactly when the target stage is not a registry key or already appears among
the bid's recorded stage intervals; in particular a second transition to the
same stage is refused. The UI offers only `available_stages`, so the refusal
is modelled as `none`. -/
theorem transition_stage_invalid (db : DB) (b : Nat) (bid : Bid)
    (h : findBid db b = some bid) (s n : String) (t : Int) :
    (transition_stage db b s n t = none ↔
      (s ∉ stageKeys ∨ s ∈ usedStages db b)) ∧
    (∀ db' n' t' n'' t'', transition_stage db b s n' t' = some db' →
      transition_stage db' b s n'' t'' = none) := by
  constructor
  · rw [transition_stage_none_iff db b bid h s n t, mem_availableStages]
    by_cases hk : s ∈ stageKeys <;> by_cases hu : s ∈ usedStages db b <;>
      simp [hk, hu]
  · intro db' n' t' n'' t'' hsucc
    unfold transition_stage at hsucc
    split at hsucc
    · cases hsucc
    · split at hsucc
      · injection hsucc with hsucc
        subst hsucc
        refine transition_stage_reject_used _ b s ?_ n'' t''
        exact self_mem_usedStages_update db b s n' t'
      · cases hsucc

/-- A bid created from the empty database (used by witnesses). -/
def dbCreated : DB :=
  (create_bid DB.empty "Acme Deal" "" "Acme Corp" 100 10 "Jane" "admin"
    0).getD DB.empty

/-- `dbCreated` after one transition to "Legal Review". -/
def dbLegal : DB :=
  (transition_stage dbCreated 1 "Legal Review" "ready" 1).getD DB.empty

/-- Witness for C3 at concrete inputs: after transitioning bid 1 to
"Legal Review", a second transition to "Legal Review" is refused; an unknown
stage name is refused outright. -/
theorem transition_stage_invalid_witness :
    transition_stage dbLegal 1 "Legal Review" "again" 2 = none ∧
    transition_stage dbCreated 1 "Quality Gate" "x" 1 = none :=
  ⟨(transition_stage_invalid dbCreated 1
      { id := 1, title := "Acme Deal", description := "", status := "Open",
        stage := "Proposal Drafting", due_date := 10, assigned_to := "Jane",
        created_by := "admin", created_at := 0, client_name := "Acme Corp",
        bid_value := 100, reason := none }
      (by decide) "Legal Review" "ready" 1).2 dbLegal "ready" 1 "again" 2
      (by decide),
   (transition_stage_invalid dbCreated 1
      { id := 1, title := "Acme Deal", description := "", status := "Open",
        stage := "Proposal Drafting", due_date := 10, assigned_to := "Jane",
        created_by := "admin", created_at := 0, client_name := "Acme Corp",
        bid_value := 100, reason := none }
      (by decide) "Quality Gate" "x" 1).1.mpr (Or.inl (by decide))⟩

section StatusLemmas

lemma closed_mem_update (db : DB) (b : Nat) (stg notes : String) (t : Int)
    (s : StageInterval) (hs : s ∈ db.bid_stages) (hb : s.bid_id = b)
    (hopen : s.completed_at = none) :
    { s with completed_at := some t }
      ∈ (update_bid_stage db b stg notes t).bid_stages := by
  have hcl : closeOpen b t s = { s with completed_at := some t } := by
    rw [closeOpen, if_pos]
    rw [hb, hopen]
    simp
  rw [update_bid_stage]
  apply List.mem_append_left
  rw [← hcl]
  exact List.mem_map_of_mem _ hs

/-- The state common to every `set_status` branch: `bids` rewritten by the
UPDATE and the status change appended to `bid_history`. -/
def set_status_core (db : DB) (b : Nat) (ns r u : String) (t : Int)
    (bid : Bid) : DB :=
  log_bid_history
    { db with
      bids := db.bids.map
        (statusUpdateRow b ns (if ns == "Lost" then r else "")) }
    b "status" bid.status ns u t

/-- The state a successful `set_status` produces, branch by branch. -/
def set_status_result (db : DB) (b : Nat) (ns r u : String) (t : Int)
    (bid : Bid) : DB :=
  if ns == "Won" then
    update_bid_stage (set_status_core db b ns r u t bid) b "Awarded"
      "Bid won!" t
  else if ns == "Lost" then
    update_bid_stage (set_status_core db b ns r u t bid) b "Lost"
      ("Bid lost: " ++ r) t
  else set_status_core db b ns r u t bid

lemma set_status_eq (db : DB) (b : Nat) (ns r u : String) (t : Int)
    (bid : Bid) (h : findBid db b = some bid) :
    set_status db b ns r u t = some (set_status_result db b ns r u t bid) := by
  unfold set_status set_status_result set_status_core
  rw [h]
  by_cases hw : (ns == "Won") = true
  · simp [hw]
  · by_cases hl : (ns == "Lost") = true
    · simp [hw, hl]
    · simp [hw, hl]

lemma set_status_result_bids (db : DB) (b : Nat) (ns r u : String) (t : Int)
    (bid : Bid) :
    (set_status_result db b ns r u t bid).bids
      = db.bids.map (statusUpdateRow b ns (if ns == "Lost" then r else "")) := by
  unfold set_status_result set_status_core
  split
  · rfl
  · split <;> rfl

end StatusLemmas

/-- C4: for an existing bid, setStatus writes the new status and reason onto
the bid row, appends exactly one HistoryRecord (field "status", old value =
prior status, new value = new status), and additionally opens an "Awarded"
interval with notes "Bid won!" when the new status is "Won" and a "Lost"
interval with notes "Bid lost: "+reason when it is "Lost", closing every
previously-open interval of the bid. -/
theorem set_status_spec (db : DB) (b : Nat) (bid : Bid)
    (h : findBid db b = some bid) (ns r u : String) (t : Int) :
    set_status db b ns r u t = some (set_status_result db b ns r u t bid) ∧
    (set_status_result db b ns r u t bid).bids
      = db.bids.map (statusUpdateRow b ns (if ns == "Lost" then r else "")) ∧
    (set_status_result db b ns r u t bid).bid_history
      = db.bid_history ++
        [{ id := db.next_hist_id, bid_id := b, changed_at := t,
           changed_by := u, field_changed := "status",
           old_value := bid.status, new_value := ns }] ∧
    (ns = "Won" →
      openIntervalsFor (set_status_result db b ns r u t bid) b
        = [{ id := db.next_stage_id, bid_id := b, stage := "Awarded",
             stage_owner := "Account Manager", started_at := t,
             completed_at := none, notes := "Bid won!" }]) ∧
    (ns = "Lost" →
      openIntervalsFor (set_status_result db b ns r u t bid) b
        = [{ id := db.next_stage_id, bid_id := b, stage := "Lost",
             stage_owner := "Sales Lead", started_at := t,
             completed_at := none, notes := "Bid lost: " ++ r }]) ∧
    ((ns = "Won" ∨ ns = "Lost") →
      ∀ s ∈ db.bid_stages, s.bid_id = b → s.completed_at = none →
        { s with completed_at := some t }
          ∈ (set_status_result db b ns r u t bid).bid_stages) ∧
    (ns ≠ "Won" → ns ≠ "Lost" →
      (set_status_result db b ns r u t bid).bid_stages = db.bid_stages) := by
  refine ⟨set_status_eq db b ns r u t bid h, set_status_result_bids _ _ _ _ _ _ _,
    ?_, ?_, ?_, ?_, ?_⟩
  · unfold set_status_result
    split
    · rfl
    · split <;> rfl
  · intro hw
    subst hw
    rw [show set_status_result db b "Won" r u t bid
        = update_bid_stage (set_status_core db b "Won" r u t bid) b "Awarded"
            "Bid won!" t from by simp [set_status_result]]
    rw [openIntervalsFor_update, if_pos rfl]
    rfl
  · intro hl
    subst hl
    rw [show set_status_result db b "Lost" r u t bid
        = update_bid_stage (set_status_core db b "Lost" r u t bid) b "Lost"
            ("Bid lost: " ++ r) t from by simp [set_status_result]]
    rw [openIntervalsFor_update, if_pos rfl]
    rfl
  · intro hor s hs hb hopen
    rcases hor with hw | hl
    · subst hw
      rw [show set_status_result db b "Won" r u t bid
          = update_bid_stage (set_status_core db b "Won" r u t bid) b "Awarded"
              "Bid won!" t from by simp [set_status_result]]
      exact closed_mem_update _ b _ _ t s hs hb hopen
    · subst hl
      rw [show set_status_result db b "Lost" r u t bid
          = update_bid_stage (set_status_core db b "Lost" r u t bid) b "Lost"
              ("Bid lost: " ++ r) t from by simp [set_status_result]]
      exact closed_mem_update _ b _ _ t s hs hb hopen
  · intro hw hl
    rw [show set_status_result db b ns r u t bid
        = set_status_core db b ns r u t bid from by
      simp [set_status_result, beq_eq_false_iff_ne.mpr hw,
        beq_eq_false_iff_ne.mpr hl]]
    rfl

/-- The bid row created by the concrete `dbCreated` scenario. -/
def bidAcme : Bid :=
  { id := 1, title := "Acme Deal", description := "", status := "Open",
    stage := "Proposal Drafting", due_date := 10, assigned_to := "Jane",
    created_by := "admin", created_at := 0, client_name := "Acme Corp",
    bid_value := 100, reason := none }

/-- Witness for C4 at a concrete input: marking the created bid "Won". -/
theorem set_status_spec_witness :
    set_status dbCreated 1 "Won" "" "admin" 1
        = some (set_status_result dbCreated 1 "Won" "" "admin" 1 bidAcme) ∧
    openIntervalsFor (set_status_result dbCreated 1 "Won" "" "admin" 1
        bidAcme) 1
      = [{ id := 2, bid_id := 1, stage := "Awarded",
           stage_owner := "Account Manager", started_at := 1,
           completed_at := none, notes := "Bid won!" }] ∧
    (set_status_result dbCreated 1 "Won" "" "admin" 1 bidAcme).bid_history
      = dbCreated.bid_history ++
        [{ id := 1, bid_id := 1, changed_at := 1, changed_by := "admin",
           field_changed := "status", old_value := "Open",
           new_value := "Won" }] :=
  have hm := set_status_spec dbCreated 1 bidAcme (by decide) "Won" "" "admin" 1
  ⟨hm.1, hm.2.2.2.1 rfl, hm.2.2.1⟩

/-- C10: setStatus modifies only the status and reason columns of the bid
row — every other column of every row is unchanged, rows of other bids are
wholly unchanged — and for every new status other than "Lost" the reason is
overwritten with the empty string. -/
theorem set_status_frame (db : DB) (b : Nat) (bid : Bid)
    (h : findBid db b = some bid) (ns r u : String) (t : Int) :
    ∀ db', set_status db b ns r u t = some db' →
      db'.bids.length = db.bids.length ∧
      (∀ b' ∈ db'.bids, ∃ x ∈ db.bids,
        b'.id = x.id ∧ b'.title = x.title ∧ b'.description = x.description ∧
        b'.due_date = x.due_date ∧ b'.assigned_to = x.assigned_to ∧
        b'.created_by = x.created_by ∧ b'.created_at = x.created_at ∧
        b'.client_name = x.client_name ∧ b'.bid_value = x.bid_value ∧
        b'.stage = x.stage ∧
        (x.id ≠ b → b' = x) ∧
        (x.id = b → b'.status = ns ∧
          b'.reason = some (if ns == "Lost" then r else ""))) ∧
      (ns ≠ "Lost" → ∀ b' ∈ db'.bids, b'.id = b → b'.reason = some "") := by
  intro db' heq
  rw [set_status_eq db b ns r u t bid h] at heq
  injection heq with heq
  subst heq
  have hbids := set_status_result_bids db b ns r u t bid
  refine ⟨by rw [hbids, List.length_map], ?_, ?_⟩
  · intro b' hb'
    rw [hbids] at hb'
    rcases List.mem_map.mp hb' with ⟨x, hx, rfl⟩
    refine ⟨x, hx, ?_⟩
    by_cases hid : (x.id == b) = true
    · rw [statusUpdateRow, if_pos hid]
      refine ⟨rfl, rfl, rfl, rfl, rfl, rfl, rfl, rfl, rfl, rfl, ?_, ?_⟩
      · intro hne
        exact absurd (eq_of_beq hid) hne
      · intro _
        exact ⟨rfl, rfl⟩
    · rw [statusUpdateRow, if_neg hid]
      refine ⟨rfl, rfl, rfl, rfl, rfl, rfl, rfl, rfl, rfl, rfl,
        fun _ => rfl, ?_⟩
      intro he
      exact absurd (by rw [he]; exact beq_self_eq_true b) hid
  · intro hnl b' hb' hidb
    rw [hbids] at hb'
    rcases List.mem_map.mp hb' with ⟨x, _, rfl⟩
    by_cases hid : (x.id == b) = true
    · rw [statusUpdateRow, if_pos hid]
      simp [beq_eq_false_iff_ne.mpr hnl]
    · rw [statusUpdateRow, if_neg hid] at hidb ⊢
      exact absurd (by rw [hidb]; exact beq_self_eq_true b) hid

/-- `dbCreated` after setting status "Submitted". -/
def dbSubmitted : DB :=
  (set_status dbCreated 1 "Submitted" "" "admin" 2).getD DB.empty

/-- Witness for C10 at a concrete input: a non-"Lost" status update keeps
the row count and blanks the reason of the touched bid. -/
theorem set_status_frame_witness :
    dbSubmitted.bids.length = dbCreated.bids.length ∧
    (∀ b' ∈ dbSubmitted.bids, b'.id = 1 → b'.reason = some "") :=
  have hm := set_status_frame dbCreated 1 bidAcme (by decide) "Submitted" ""
    "admin" 2 dbSubmitted (by decide)
  ⟨hm.1, hm.2.2 (by decide)⟩

/-- The spec's `dueSoon(withinDays, now)`: the query of
`show_deadline_reminders` (src/app.py lines 131-137),
`SELECT id, title, due_date FROM bids WHERE due_date <= ? AND
status = 'Open'` with parameter `now + withinDays`. The SQL carries no
ORDER BY, so rows come back in table (insertion) order. -/
def dueSoon (db : DB) (now withinDays : Int) : List Bid :=
  db.bids.filter
    (fun b => decide (b.due_date ≤ now + withinDays) && b.status == "Open")

/-- `show_deadline_reminders` instantiates the query with a three-day
window (`today + timedelta(days=3)`, src/app.py line 136). -/
def show_deadline_reminders_upcoming (db : DB) (today : Int) : List Bid :=
  dueSoon db today 3

/-- A database holding two open bids, inserted with due dates 3 then 2. -/
def dbTwoBids : DB :=
  (create_bid ((create_bid DB.empty "B1" "" "C1" 0 3 "A" "u" 0).getD DB.empty)
    "B2" "" "C2" 0 2 "A" "u" 0).getD DB.empty

/-- Counterexample to C7 as stated: with bids due 3 and 2 (both Open,
window 3 from now = 0) the query returns due dates [3, 2] — insertion
order, not due_date ascending. -/
theorem dueSoon_not_sorted_counterexample :
    (dueSoon dbTwoBids 0 3).map (fun b => b.due_date) = [3, 2] ∧
    ¬ List.Sorted (fun a b : Int => a ≤ b)
        ((dueSoon dbTwoBids 0 3).map (fun b => b.due_date)) := by
  constructor
  · decide
  · intro hs
    have hmap : (dueSoon dbTwoBids 0 3).map (fun b => b.due_date) = [3, 2] :=
      by decide
    rw [hmap] at hs
    have := List.rel_of_sorted_cons hs 2 (List.mem_singleton_self 2)
    exact absurd this (by decide)

/-- C7 amended: `dueSoon(withinDays, now)` returns exactly the Open bids
whose due_date ≤ now + withinDays, in store (insertion) order — a
subsequence of the bids table — with no due_date ordering; bids of any
other status are excluded even inside the window. -/
theorem dueSoon_amended (db : DB) (now w : Int) :
    (∀ b, b ∈ dueSoon db now w ↔
      (b ∈ db.bids ∧ b.status = "Open" ∧ b.due_date ≤ now + w)) ∧
    List.Sublist (dueSoon db now w) db.bids := by
  constructor
  · intro b
    rw [dueSoon, List.mem_filter]
    simp only [Bool.and_eq_true, decide_eq_true_eq, beq_iff_eq]
    tauto
  · exact List.filter_sublist _

/-- Ordering used by the audit queries: `a` is at least as recent as `b`. -/
def histLater (a b : HistoryRecord) : Prop := b.changed_at ≤ a.changed_at

instance : DecidableRel histLater :=
  fun a b => inferInstanceAs (Decidable (b.changed_at ≤ a.changed_at))

instance : IsTotal HistoryRecord histLater :=
  ⟨fun a b => Int.le_total b.changed_at a.changed_at⟩

instance : IsTrans HistoryRecord histLater :=
  ⟨fun _ _ _ hab hbc => le_trans hbc hab⟩

/-- `ORDER BY changed_at DESC`, modelled as a sort by `histLater`. -/
def sortByChangedAtDesc (l : List HistoryRecord) : List HistoryRecord :=
  List.insertionSort histLater l

/-- `SELECT * FROM bid_history WHERE bid_id=? ORDER BY changed_at DESC`
(src/app.py lines 442-444). -/
def audit_trail (db : DB) (bid_id : Nat) : List HistoryRecord :=
  sortByChangedAtDesc (db.bid_history.filter (fun h => h.bid_id == bid_id))

/-- The records kept by the global query's `JOIN bids b ON h.bid_id = b.id`
(src/app.py line 453): history rows whose bid exists. -/
def joinedHistory (db : DB) : List HistoryRecord :=
  db.bid_history.filter (fun h => db.bids.any (fun b => b.id == h.bid_id))

/-- `SELECT h.*, b.title FROM bid_history h JOIN bids b ON h.bid_id = b.id
ORDER BY h.changed_at DESC LIMIT 50` (src/app.py lines 452-454). -/
def recent_activity (db : DB) : List HistoryRecord :=
  (sortByChangedAtDesc (joinedHistory db)).take 50

/-- C8: the per-bid audit query returns all of that bid's HistoryRecords
ordered by changed_at descending, and the global view returns the records
of existing bids ordered by changed_at descending truncated to the most
recent 50 (a prefix of the full descending ordering, of length
min 50 total). -/
theorem audit_ordering_spec (db : DB) (b : Nat) :
    List.Sorted histLater (audit_trail db b) ∧
    (audit_trail db b).Perm
      (db.bid_history.filter (fun h => h.bid_id == b)) ∧
    List.Sorted histLater (recent_activity db) ∧
    (recent_activity db).length = min 50 (joinedHistory db).length ∧
    (∀ x ∈ recent_activity db,
      ∀ y ∈ (sortByChangedAtDesc (joinedHistory db)).drop 50, histLater x y) := by
  refine ⟨List.sorted_insertionSort _ _, List.perm_insertionSort _ _, ?_, ?_,
    ?_⟩
  · exact List.Pairwise.sublist (List.take_sublist _ _)
      (List.sorted_insertionSort histLater (joinedHistory db))
  · rw [recent_activity, List.length_take, sortByChangedAtDesc,
      (List.perm_insertionSort histLater (joinedHistory db)).length_eq]
  · have hs : List.Pairwise histLater
        (sortByChangedAtDesc (joinedHistory db)) :=
      List.sorted_insertionSort histLater (joinedHistory db)
    rw [← List.take_append_drop 50 (sortByChangedAtDesc (joinedHistory db))]
      at hs
    exact fun x hx y hy => (List.pairwise_append.mp hs).2.2 x hx y hy

/-- A ledger of 51 records for one existing bid, enough to exercise the
LIMIT 50 truncation. -/
def manyHist : List HistoryRecord :=
  (List.range 51).map (fun i =>
    { id := i, bid_id := 1, changed_at := (i : Int), changed_by := "u",
      field_changed := "status", old_value := "a", new_value := "b" })

def dbManyHist : DB :=
  { bids := [bidAcme], bid_stages := [], bid_history := manyHist,
    next_bid_id := 2, next_stage_id := 1, next_hist_id := 52 }

/-- Witness for C8 at a concrete input: the most recent record is kept, the
oldest is dropped, and the kept one is at least as recent as the dropped
one. -/
theorem audit_ordering_spec_witness :
    histLater
      { id := 50, bid_id := 1, changed_at := 50, changed_by := "u",
        field_changed := "status", old_value := "a", new_value := "b" }
      { id := 0, bid_id := 1, changed_at := 0, changed_by := "u",
        field_changed := "status", old_value := "a", new_value := "b" } :=
  (audit_ordering_spec dbManyHist 1).2.2.2.2 _ (by decide) _ (by decide)

section StageConsistency

lemma statusUpdateRow_stage (b : Nat) (ns rs : String) (x : Bid) :
    (statusUpdateRow b ns rs x).stage = x.stage := by
  rw [statusUpdateRow]
  split <;> rfl

lemma statusUpdateRow_id (b : Nat) (ns rs : String) (x : Bid) :
    (statusUpdateRow b ns rs x).id = x.id := by
  rw [statusUpdateRow]
  split <;> rfl

lemma findBid_map_statusUpdate (l : List Bid) (b : Nat) (ns rs : String) :
    (l.map (statusUpdateRow b ns rs)).find? (fun x => x.id == b)
      = (l.find? (fun x => x.id == b)).map (statusUpdateRow b ns rs) := by
  induction l with
  | nil => rfl
  | cons x xs ih =>
    cases hid : (x.id == b) with
    | true =>
      have hpos : ((statusUpdateRow b ns rs x).id == b) = true := by
        rw [statusUpdateRow_id]
        exact hid
      simp only [List.map_cons, List.find?_cons, hpos, hid, cond]
      rfl
    | false =>
      have hneg : ((statusUpdateRow b ns rs x).id == b) = false := by
        rw [statusUpdateRow_id]
        exact hid
      simp only [List.map_cons, List.find?_cons, hneg, hid, cond]
      exact ih

lemma openIntervalsFor_set_bids (db : DB) (l : List Bid) (y : Nat) :
    openIntervalsFor { db with bids := l } y = openIntervalsFor db y := rfl

end StageConsistency

/-- `dbCreated` after setting status "Won" (the compound Won transition). -/
def dbWonStatus : DB :=
  (set_status dbCreated 1 "Won" "" "admin" 1).getD DB.empty

/-- Counterexample to C2 as stated: after setStatus(bidId, "Won") the bid's
`stage` column still reads "Proposal Drafting" while its open interval is
"Awarded" — the status flow never updates `bids.stage`. -/
theorem stageMatchesOpen_counterexample :
    (set_status dbCreated 1 "Won" "" "admin" 1).isSome = true ∧
    (findBid dbWonStatus 1).map (fun b => b.stage)
        = some "Proposal Drafting" ∧
    (openIntervalsFor dbWonStatus 1).map (fun s => s.stage) = ["Awarded"] ∧
    ¬ StageMatchesOpen dbWonStatus := by
  refine ⟨by decide, by decide, by decide, ?_⟩
  intro hsm
  exact absurd (hsm
    { bidAcme with status := "Won", reason := some "" } (by decide)
    { id := 2, bid_id := 1, stage := "Awarded",
      stage_owner := "Account Manager", started_at := 1,
      completed_at := none, notes := "Bid won!" } (by decide)) (by decide)

/-- C2 amended: the bid's `stage` column equals the stage of its open
interval after create and after every successful transitionStage; but
setStatus with "Won"/"Lost" opens an "Awarded"/"Lost" interval without
touching the `stage` column, which keeps its prior value, so the invariant
does not survive those compound transitions. -/
theorem stageMatchesOpen_amended (db : DB) (h : StageMatchesOpen db)
    (hfresh : ∀ b ∈ db.bids, b.id ≠ db.next_bid_id) :
    (∀ title descr client bv dd asg u t db',
      create_bid db title descr client bv dd asg u t = some db' →
      StageMatchesOpen db') ∧
    (∀ b s n t db', transition_stage db b s n t = some db' →
      StageMatchesOpen db') ∧
    (∀ b bid ns r u t db', findBid db b = some bid →
      set_status db b ns r u t = some db' →
      ((findBid db' b).map (fun x => x.stage) = some bid.stage ∧
       (ns = "Won" →
         (openIntervalsFor db' b).map (fun s => s.stage) = ["Awarded"]) ∧
       (ns = "Lost" →
         (openIntervalsFor db' b).map (fun s => s.stage) = ["Lost"]))) := by
  refine ⟨?_, ?_, ?_⟩
  · intro title descr client bv dd asg u t db' heq
    unfold create_bid at heq
    split at heq
    · cases heq
    · injection heq with heq
      subst heq
      intro b' hb' s hs
      rcases List.mem_append.mp hb' with hb'' | hb''
      · have hne : b'.id ≠ db.next_bid_id := hfresh b' hb''
        rw [openIntervalsFor_update, if_neg hne] at hs
        exact h b' hb'' s hs
      · rcases List.mem_singleton.mp hb'' with rfl
        rw [openIntervalsFor_update, if_pos rfl] at hs
        rcases List.mem_singleton.mp hs with rfl
        rfl
  · intro b s n t db' heq
    unfold transition_stage at heq
    split at heq
    · cases heq
    · split at heq
      · injection heq with heq
        subst heq
        intro b' hb' si hsi
        rw [openIntervalsFor_set_bids] at hsi
        rcases List.mem_map.mp hb' with ⟨x, hx, rfl⟩
        by_cases hid : (x.id == b) = true
        · rw [if_pos hid] at hsi ⊢
          have hxb : x.id = b := eq_of_beq hid
          rw [show ({ x with stage := s } : Bid).id = x.id from rfl, hxb,
            openIntervalsFor_update, if_pos rfl] at hsi
          rcases List.mem_singleton.mp hsi with rfl
          rfl
        · rw [if_neg hid] at hsi ⊢
          have hxb : x.id ≠ b := fun he =>
            absurd (by rw [he]; exact beq_self_eq_true b) hid
          rw [openIntervalsFor_update, if_neg hxb] at hsi
          exact h x hx si hsi
      · cases heq
  · intro b bid ns r u t db' hf heq
    rw [set_status_eq db b ns r u t bid hf] at heq
    injection heq with heq
    subst heq
    refine ⟨?_, ?_, ?_⟩
    · rw [show findBid (set_status_result db b ns r u t bid) b
          = (set_status_result db b ns r u t bid).bids.find?
              (fun x => x.id == b) from rfl,
        set_status_result_bids, findBid_map_statusUpdate]
      rw [show db.bids.find? (fun x => x.id == b) = findBid db b from rfl, hf,
        Option.map_map]
      simp [Function.comp, statusUpdateRow_stage]
    · intro hw
      subst hw
      rw [show set_status_result db b "Won" r u t bid
          = update_bid_stage (set_status_core db b "Won" r u t bid) b
              "Awarded" "Bid won!" t from by simp [set_status_result]]
      rw [openIntervalsFor_update, if_pos rfl]
      rfl
    · intro hl
      subst hl
      rw [show set_status_result db b "Lost" r u t bid
          = update_bid_stage (set_status_core db b "Lost" r u t bid) b
              "Lost" ("Bid lost: " ++ r) t from by simp [set_status_result]]
      rw [openIntervalsFor_update, if_pos rfl]
      rfl

/-- Witness for C2 (amended) at a concrete input: creating a bid from the
empty database yields a stage-consistent state. -/
theorem stageMatchesOpen_amended_witness : StageMatchesOpen dbCreated :=
  (stageMatchesOpen_amended DB.empty
      (fun b hb => absurd hb (List.not_mem_nil b))
      (fun b hb => absurd hb (List.not_mem_nil b))).1
    "Acme Deal" "" "Acme Corp" 100 10 "Jane" "admin" 0 dbCreated (by decide)

end BidApp
